import Mathlib

/-! Environment utilities of vicinae (`src/vicinae/src/utils/environment.hpp`)

A shallow embedding of the functions of the `Environment` namespace.

Modelling conventions:

* The process environment is a snapshot `Env`, a map from variable names to values:
  `env k = none` when `k` is unset and `env k = some v` when it is set to `v`
  (possibly the empty string).  Names are compared exactly (case-sensitively), as
  `getenv` and `QProcessEnvironment` do on Unix.
* `QString`, `QByteArray` and `std::filesystem::path` values are Lean `String`s.
* The toolkit oracles that the header calls (`QApplication::platformName()`,
  `QDir::homePath()`, `Omnicast::xdgDataDirs()`) are explicit arguments.
-/

namespace Environment

/-! ## The environment snapshot and the Qt accessors used by the header -/

/-- An environment snapshot: variable name to value, `none` when the variable is unset. -/
abbrev Env := String → Option String

/-- The snapshot holding the given `name = value` entries (the first entry of a name wins). -/
def envOfList (entries : List (String × String)) : Env :=
  fun k => (entries.find? (fun p => p.1 = k)).map (fun p => p.2)

/-- Model of `qgetenv(name)`: the value of the variable, the empty byte array when unset. -/
def qgetenv (env : Env) (name : String) : String :=
  match env name with
  | some v => v
  | none => ""

/-- Model of `qEnvironmentVariable(name, defaultValue)`: the value of the variable when it
is set (also when it is set to the empty string), `defaultValue` when it is unset. -/
def qEnvironmentVariable (env : Env) (name defaultValue : String) : String :=
  match env name with
  | some v => v
  | none => defaultValue

/-- Model of `getenv(name)`: a null pointer (`none`) when unset, the value otherwise. -/
def getenv (env : Env) (name : String) : Option String :=
  env name

/-! ## `QProcessEnvironment` as a map -/

/-- Model of `QProcessEnvironment::contains`. -/
def Env.contains (env : Env) (k : String) : Bool :=
  (env k).isSome

/-- Model of `QProcessEnvironment::remove`: the entry of `k` is dropped, others are kept. -/
def Env.remove (env : Env) (k : String) : Env :=
  fun k' => if k' = k then none else env k'

/-- Model of `QProcessEnvironment::insert`: `k` is bound to `v`, replacing an older binding. -/
def Env.insert (env : Env) (k v : String) : Env :=
  fun k' => if k' = k then some v else env k'

/-! ## `sanitizedAppLaunchEnvironment` -/

/-- The local constant `toRemove` of `sanitizedAppLaunchEnvironment`. -/
def toRemove : List String :=
  [ "LD_LIBRARY_PATH",
    "LD_PRELOAD",
    "QT_PLUGIN_PATH",
    "QT_QPA_PLATFORM_PLUGIN_PATH",
    "QML2_IMPORT_PATH",
    "QML_IMPORT_PATH",
    "NIXPKGS_QT6_QML_IMPORT_PATH",
    "XDG_DATA_DIRS",
    "GSETTINGS_SCHEMA_DIR",
    "GST_PLUGIN_SYSTEM_PATH",
    "GST_PLUGIN_SYSTEM_PATH_1_0",
    "GST_PLUGIN_PATH" ]

/-- The loop `for (const auto &k : toRemove) if (env.contains(k)) env.remove(k);`. -/
def removeAll (env : Env) (keys : List String) : Env :=
  keys.foldl (fun e k => if e.contains k then e.remove k else e) env

/-- The local list `cleanPath` of `sanitizedAppLaunchEnvironment`; `homePath` is the
result of `QDir::homePath()`. -/
def cleanPath (homePath : String) : List String :=
  [ homePath ++ "/.local/bin",
    "/run/wrappers/bin",
    homePath ++ "/.local/share/flatpak/exports/bin",
    "/var/lib/flatpak/exports/bin",
    homePath ++ "/.nix-profile/bin",
    "/nix/profile/bin",
    homePath ++ "/.local/state/nix/profile/bin",
    "/etc/profiles/per-user/fox/bin",
    "/nix/var/nix/profiles/default/bin",
    "/run/current-system/sw/bin" ]

/-- Model of `QStringList::join(sep)`. -/
def join (parts : List String) (sep : String) : String :=
  sep.intercalate parts

set_option linter.unusedVariables false in
/-- Embedding of `sanitizedAppLaunchEnvironment(program)`.  `systemEnvironment` is the
snapshot returned by `QProcessEnvironment::systemEnvironment()` and `homePath` the result
of `QDir::homePath()`. -/
def sanitizedAppLaunchEnvironment (systemEnvironment : Env) (homePath : String)
    (program : String) : Env :=
  let env := systemEnvironment
  let env := removeAll env toRemove
  let env := env.insert "PATH" (join (cleanPath homePath) ":")
  env

/-! ## `fallbackIconSearchPaths` -/

/-- Model of `std::filesystem::path::is_absolute` on POSIX: the path starts with `/`. -/
def isAbsolute (p : String) : Bool :=
  match p.data with
  | [] => false
  | c :: _ => c = '/'

/-- Model of `std::filesystem::path::has_filename` on POSIX: the path is not empty and
does not end in `/`. -/
def hasFilename (p : String) : Bool :=
  match p.data.getLast? with
  | none => false
  | some c => c ≠ '/'

/-- Model of `std::filesystem::operator/` on POSIX (`p / q`): an absolute `q` replaces
`p`; otherwise `q` is appended to `p`, after a separator when `p` has a filename. -/
def pathAppend (p q : String) : String :=
  if isAbsolute q then q
  else if hasFilename p then p ++ "/" ++ q
  else p ++ q

/-- Embedding of `fallbackIconSearchPaths()`; `xdgDataDirs` is the result of
`Omnicast::xdgDataDirs()`. -/
def fallbackIconSearchPaths (xdgDataDirs : List String) : List String :=
  let list : List String := []
  let dirs := xdgDataDirs
  let list := dirs.foldl (fun l dir => l ++ [pathAppend dir "pixmaps"]) list
  let list := dirs.foldl (fun l dir => l ++ [pathAppend dir "icons"]) list
  list

/-! ## Case-insensitive search (`QString::contains(needle, Qt::CaseInsensitive)`) -/

/-- Model of the case folding Qt compares characters under (`QChar::toCaseFolded`, the
simple case folding of Unicode), given on the code points that fold to an ASCII letter:
`A`..`Z`, the Kelvin sign U+212A (to `k`) and the long s U+017F (to `s`).  No other code
point folds to an ASCII letter; they are left as they are. -/
def foldCase (c : Char) : Char :=
  if 'A' ≤ c ∧ c ≤ 'Z' then Char.ofNat (c.toNat + 32)
  else if c = Char.ofNat 0x212A then 'k'
  else if c = Char.ofNat 0x017F then 's'
  else c

/-- The needle matches at the start of the haystack, characters compared after folding. -/
def matchesAt : List Char → List Char → Bool
  | [], _ => true
  | _ :: _, [] => false
  | n :: ns, h :: hs => (foldCase n = foldCase h) && matchesAt ns hs

/-- The needle matches at some position of the haystack (search from the left). -/
def findFolded (needle : List Char) : List Char → Bool
  | [] => matchesAt needle []
  | h :: hs => matchesAt needle (h :: hs) || findFolded needle hs

/-- Model of `s.contains(needle, Qt::CaseInsensitive)`. -/
def containsCaseInsensitive (s needle : String) : Bool :=
  findFolded needle.data s.data

/-! ## Session classification -/

/-- Embedding of `isGnomeEnvironment()`. -/
def isGnomeEnvironment (env : Env) : Bool :=
  let desktop := qgetenv env "XDG_CURRENT_DESKTOP"
  let session := qgetenv env "GDMSESSION"
  containsCaseInsensitive desktop "GNOME" || containsCaseInsensitive session "gnome"

/-- Embedding of `isWaylandSession()`; `platformName` is the result of
`QApplication::platformName()`. -/
def isWaylandSession (platformName : String) : Bool :=
  platformName = "wayland"

/-- Embedding of `isWlrootsCompositor()`. -/
def isWlrootsCompositor (env : Env) : Bool :=
  let desktop := qgetenv env "XDG_CURRENT_DESKTOP"
  containsCaseInsensitive desktop "Hyprland" || containsCaseInsensitive desktop "sway" ||
    containsCaseInsensitive desktop "river"

/-- Embedding of `isHudDisabled()`. -/
def isHudDisabled (env : Env) : Bool :=
  qEnvironmentVariable env "VICINAE_DISABLE_HUD" "0" = "1"

/-- Embedding of `isLayerShellEnabled()`. -/
def isLayerShellEnabled (env : Env) : Bool :=
  qEnvironmentVariable env "USE_LAYER_SHELL" "1" = "1"

/-- Embedding of `appImageDir()`. -/
def appImageDir (env : Env) : Option String :=
  match getenv env "APPDIR" with
  | some appdir => some appdir
  | none => none

/-- Embedding of `nodeBinaryOverride()`. -/
def nodeBinaryOverride (env : Env) : Option String :=
  match getenv env "NODE_BIN" with
  | some bin => some bin
  | none => none

/-- Embedding of `isAppImage()`. -/
def isAppImage (env : Env) : Bool :=
  (appImageDir env).isSome

/-- Embedding of `getEnvironmentDescription()`; `platformName` is the result of
`QApplication::platformName()`. -/
def getEnvironmentDescription (env : Env) (platformName : String) : String :=
  let desc : String :=
    if isGnomeEnvironment env then "GNOME"
    else if isWlrootsCompositor env then "wlroots"
    else
      let desktop := qgetenv env "XDG_CURRENT_DESKTOP"
      if desktop = "" then "Unknown" else desktop
  if isWaylandSession platformName then desc ++ "/Wayland" else desc ++ "/X11"

/-! ## Vocabulary of the specification -/

/-- The value of a variable, an unset variable counting as the empty string. -/
def valueOrEmpty (env : Env) (name : String) : String :=
  (env name).getD ""

/-- The specification's reading of "`value` contains `keyword` as a case-insensitive
substring": some contiguous piece of `value` equals `keyword` up to letter case. -/
def CaseInsensitiveSubstring (value keyword : String) : Prop :=
  ∃ pre mid post : List Char,
    value.data = pre ++ mid ++ post ∧ mid.map foldCase = keyword.data.map foldCase

/-- The protocol suffix of the description: "/Wayland" when the platform name is exactly
"wayland", "/X11" otherwise. -/
def protocolSuffix (platformName : String) : String :=
  if platformName = "wayland" then "/Wayland" else "/X11"

theorem removeAll_apply (keys : List String) (env : Env) (k : String) :
    removeAll env keys k = if k ∈ keys then none else env k := by
  induction keys generalizing env with
  | nil => simp [removeAll]
  | cons a rest ih =>
    have hstep : removeAll env (a :: rest)
        = removeAll (if env.contains a then env.remove a else env) rest := by
      simp [removeAll]
    rw [hstep, ih]
    by_cases hk : k ∈ rest
    · simp [hk]
    · by_cases hka : k = a
      · subst hka
        by_cases hc : env.contains k = true
        · simp [hk, hc, Env.remove]
        · have hnone : env k = none := by
            simpa [Env.contains] using hc
          simp [hk, hc, hnone]
      · by_cases hc : env.contains a = true
        · simp [hk, hka, hc, Env.remove]
        · simp [hk, hka, hc]

theorem sanitized_apply (env : Env) (homePath program k : String) :
    sanitizedAppLaunchEnvironment env homePath program k
      = if k = "PATH" then some (join (cleanPath homePath) ":")
        else if k ∈ toRemove then none else env k := by
  simp [sanitizedAppLaunchEnvironment, Env.insert, removeAll_apply]

/-! ## The launch environment -/

/-- C1: whatever the input snapshot holds, the map returned by
`sanitizedAppLaunchEnvironment` contains none of the twelve deny-listed keys. -/
theorem sanitized_contains_no_denied_key (env : Env) (homePath program : String) :
    ∀ k ∈ ["LD_LIBRARY_PATH", "LD_PRELOAD", "QT_PLUGIN_PATH", "QT_QPA_PLATFORM_PLUGIN_PATH",
        "QML2_IMPORT_PATH", "QML_IMPORT_PATH", "NIXPKGS_QT6_QML_IMPORT_PATH", "XDG_DATA_DIRS",
        "GSETTINGS_SCHEMA_DIR", "GST_PLUGIN_SYSTEM_PATH", "GST_PLUGIN_SYSTEM_PATH_1_0",
        "GST_PLUGIN_PATH"],
      (sanitizedAppLaunchEnvironment env homePath program).contains k = false ∧
        sanitizedAppLaunchEnvironment env homePath program k = none := by
  intro k hk
  have hmem : k ∈ toRemove := hk
  have hne : k ≠ "PATH" := by
    rintro rfl
    revert hk
    decide
  have h : sanitizedAppLaunchEnvironment env homePath program k = none := by
    rw [sanitized_apply]
    simp [hne, hmem]
  simp [Env.contains, h]

/-- Witness of C1: a snapshot that sets `LD_PRELOAD` (and `PATH`) loses `LD_PRELOAD`. -/
theorem sanitized_contains_no_denied_key_witness :
    (envOfList [("LD_PRELOAD", "/lib/hook.so"), ("PATH", "/bin")]) "LD_PRELOAD"
        = some "/lib/hook.so" ∧
      ((sanitizedAppLaunchEnvironment
          (envOfList [("LD_PRELOAD", "/lib/hook.so"), ("PATH", "/bin")]) "/home/u" "").contains
          "LD_PRELOAD" = false ∧
        sanitizedAppLaunchEnvironment
          (envOfList [("LD_PRELOAD", "/lib/hook.so"), ("PATH", "/bin")]) "/home/u" ""
          "LD_PRELOAD" = none) :=
  ⟨by decide,
    sanitized_contains_no_denied_key
      (envOfList [("LD_PRELOAD", "/lib/hook.so"), ("PATH", "/bin")]) "/home/u" ""
      "LD_PRELOAD" (by decide)⟩

/-- C2: for every input snapshot the result binds `PATH` to the ten fixed entries, in
order, joined by `:`; the value is the same for every two input snapshots, so it does
not depend on the input `PATH`. -/
theorem sanitized_path_is_fixed (env : Env) (homePath program : String) :
    sanitizedAppLaunchEnvironment env homePath program "PATH"
        = some (":".intercalate
            [ homePath ++ "/.local/bin", "/run/wrappers/bin",
              homePath ++ "/.local/share/flatpak/exports/bin", "/var/lib/flatpak/exports/bin",
              homePath ++ "/.nix-profile/bin", "/nix/profile/bin",
              homePath ++ "/.local/state/nix/profile/bin", "/etc/profiles/per-user/fox/bin",
              "/nix/var/nix/profiles/default/bin", "/run/current-system/sw/bin" ]) ∧
      sanitizedAppLaunchEnvironment env homePath program "PATH"
        = some (homePath ++ "/.local/bin" ++ ":" ++ "/run/wrappers/bin" ++ ":" ++
            homePath ++ "/.local/share/flatpak/exports/bin" ++ ":" ++
            "/var/lib/flatpak/exports/bin" ++ ":" ++
            homePath ++ "/.nix-profile/bin" ++ ":" ++ "/nix/profile/bin" ++ ":" ++
            homePath ++ "/.local/state/nix/profile/bin" ++ ":" ++
            "/etc/profiles/per-user/fox/bin" ++ ":" ++
            "/nix/var/nix/profiles/default/bin" ++ ":" ++ "/run/current-system/sw/bin") ∧
      (∀ env2 : Env, sanitizedAppLaunchEnvironment env2 homePath program "PATH"
        = sanitizedAppLaunchEnvironment env homePath program "PATH") ∧
      (sanitizedAppLaunchEnvironment env homePath program).contains "PATH" = true := by
  have h := sanitized_apply env homePath program "PATH"
  simp only [if_true] at h
  refine ⟨?_, ?_, ?_, ?_⟩
  · rw [h]; rfl
  · rw [h]
    simp [join, cleanPath, String.intercalate, String.intercalate.go, String.append_assoc]
  · intro env2
    rw [h, sanitized_apply]
    simp
  · simp [Env.contains, h]

/-- C3: every key other than `PATH` and the twelve deny-listed names (compared exactly)
has in the result the binding it has in the input; `DISPLAY`, `WAYLAND_DISPLAY`,
`XDG_RUNTIME_DIR` and the differently cased `ld_preload` are such keys; and the result
has no key other than `PATH` that the input lacked. -/
theorem sanitized_keeps_other_keys (env : Env) (homePath program : String) :
    (∀ k : String, k ≠ "PATH" →
        k ∉ ["LD_LIBRARY_PATH", "LD_PRELOAD", "QT_PLUGIN_PATH", "QT_QPA_PLATFORM_PLUGIN_PATH",
          "QML2_IMPORT_PATH", "QML_IMPORT_PATH", "NIXPKGS_QT6_QML_IMPORT_PATH",
          "XDG_DATA_DIRS", "GSETTINGS_SCHEMA_DIR", "GST_PLUGIN_SYSTEM_PATH",
          "GST_PLUGIN_SYSTEM_PATH_1_0", "GST_PLUGIN_PATH"] →
        sanitizedAppLaunchEnvironment env homePath program k = env k) ∧
      sanitizedAppLaunchEnvironment env homePath program "DISPLAY" = env "DISPLAY" ∧
      sanitizedAppLaunchEnvironment env homePath program "WAYLAND_DISPLAY"
        = env "WAYLAND_DISPLAY" ∧
      sanitizedAppLaunchEnvironment env homePath program "XDG_RUNTIME_DIR"
        = env "XDG_RUNTIME_DIR" ∧
      sanitizedAppLaunchEnvironment env homePath program "ld_preload" = env "ld_preload" ∧
      (∀ k : String, k ≠ "PATH" → env k = none →
        sanitizedAppLaunchEnvironment env homePath program k = none) := by
  have key : ∀ k : String, k ≠ "PATH" → k ∉ toRemove →
      sanitizedAppLaunchEnvironment env homePath program k = env k := by
    intro k h1 h2
    rw [sanitized_apply]
    simp [h1, h2]
  refine ⟨key, key _ (by decide) (by decide), key _ (by decide) (by decide),
    key _ (by decide) (by decide), key _ (by decide) (by decide), ?_⟩
  intro k h1 h2
  rw [sanitized_apply]
  simp [h1, h2]

/-- Witness of C3: `DISPLAY` keeps its value and the unset `HOME` stays unset. -/
theorem sanitized_keeps_other_keys_witness :
    sanitizedAppLaunchEnvironment
        (envOfList [("DISPLAY", ":0"), ("LD_PRELOAD", "/lib/hook.so")]) "/home/u" "" "DISPLAY"
      = some ":0" ∧
    sanitizedAppLaunchEnvironment
        (envOfList [("DISPLAY", ":0"), ("LD_PRELOAD", "/lib/hook.so")]) "/home/u" "" "HOME"
      = none :=
  ⟨(sanitized_keeps_other_keys
      (envOfList [("DISPLAY", ":0"), ("LD_PRELOAD", "/lib/hook.so")]) "/home/u" "").1
      "DISPLAY" (by decide) (by decide),
   (sanitized_keeps_other_keys
      (envOfList [("DISPLAY", ":0"), ("LD_PRELOAD", "/lib/hook.so")]) "/home/u" "").2.2.2.2.2
      "HOME" (by decide) (by decide)⟩

/-! ## The icon search paths -/

theorem foldl_push_eq_append_map (f : String → String) (dirs acc : List String) :
    dirs.foldl (fun l dir => l ++ [f dir]) acc = acc ++ dirs.map f := by
  induction dirs generalizing acc with
  | nil => simp
  | cons d rest ih => simp [ih]

theorem fallbackIconSearchPaths_eq (dirs : List String) :
    fallbackIconSearchPaths dirs
      = dirs.map (fun d => pathAppend d "pixmaps") ++ dirs.map (fun d => pathAppend d "icons") := by
  simp [fallbackIconSearchPaths, foldl_push_eq_append_map]

theorem pathAppend_of_hasFilename (d q : String) (hq : isAbsolute q = false)
    (hd : hasFilename d = true) : pathAppend d q = d ++ "/" ++ q := by
  simp [pathAppend, hq, hd]

/-- C4: for a list of `N` data directories `fallbackIconSearchPaths` returns `2N` entries,
entry `i` being `d_i / "pixmaps"` and entry `N + i` being `d_i / "icons"` (`/` the path
append of the source, which for a directory with a filename is `d_i` followed by
`/pixmaps`, `/icons`); order and duplicates are kept, nothing is dropped; `[a, b]` gives
the four entries `a/pixmaps, b/pixmaps, a/icons, b/icons` and `[]` gives `[]`. -/
theorem fallbackIconSearchPaths_two_pass (dirs : List String) :
    (fallbackIconSearchPaths dirs).length = 2 * dirs.length ∧
      (∀ (i : Nat) (d : String), dirs[i]? = some d →
        (fallbackIconSearchPaths dirs)[i]? = some (pathAppend d "pixmaps") ∧
        (fallbackIconSearchPaths dirs)[dirs.length + i]? = some (pathAppend d "icons")) ∧
      (∀ a b : String, fallbackIconSearchPaths [a, b]
        = [pathAppend a "pixmaps", pathAppend b "pixmaps",
           pathAppend a "icons", pathAppend b "icons"]) ∧
      fallbackIconSearchPaths [] = [] ∧
      (∀ d : String, hasFilename d = true →
        pathAppend d "pixmaps" = d ++ "/pixmaps" ∧ pathAppend d "icons" = d ++ "/icons") := by
  refine ⟨?_, ?_, ?_, ?_, ?_⟩
  · rw [fallbackIconSearchPaths_eq]
    simp
    omega
  · intro i d hd
    have hi : i < dirs.length := by
      rcases Nat.lt_or_ge i dirs.length with h | h
      · exact h
      · rw [List.getElem?_eq_none h] at hd
        cases hd
    rw [fallbackIconSearchPaths_eq]
    constructor
    · rw [List.getElem?_append_left (by simpa using hi)]
      simp [List.getElem?_map, hd]
    · rw [List.getElem?_append_right (by simp)]
      simp [List.getElem?_map, hd]
  · intro a b
    rfl
  · rfl
  · intro d hd
    constructor
    · rw [pathAppend_of_hasFilename d "pixmaps" (by decide) hd, String.append_assoc]
      rfl
    · rw [pathAppend_of_hasFilename d "icons" (by decide) hd, String.append_assoc]
      rfl

/-- Witness of C4: two data directories, the second one written with a trailing
separator. -/
theorem fallbackIconSearchPaths_two_pass_witness :
    (fallbackIconSearchPaths ["/usr/share", "/opt/share/"])[1]?
        = some "/opt/share/pixmaps" ∧
      (fallbackIconSearchPaths ["/usr/share", "/opt/share/"])[2 + 1]?
        = some "/opt/share/icons" ∧
      pathAppend "/usr/share" "pixmaps" = "/usr/share/pixmaps" ∧
      pathAppend "/usr/share" "icons" = "/usr/share/icons" :=
  ⟨((fallbackIconSearchPaths_two_pass ["/usr/share", "/opt/share/"]).2.1 1 "/opt/share/"
      (by decide)).1,
   ((fallbackIconSearchPaths_two_pass ["/usr/share", "/opt/share/"]).2.1 1 "/opt/share/"
      (by decide)).2,
   ((fallbackIconSearchPaths_two_pass []).2.2.2.2 "/usr/share" (by decide)).1,
   ((fallbackIconSearchPaths_two_pass []).2.2.2.2 "/usr/share" (by decide)).2⟩

/-! ## Case-insensitive search: the executable search against the specification -/

theorem matchesAt_iff (needle hay : List Char) :
    matchesAt needle hay = true ↔
      ∃ mid post : List Char, hay = mid ++ post ∧ mid.map foldCase = needle.map foldCase := by
  induction needle generalizing hay with
  | nil =>
    simp only [matchesAt, true_iff]
    exact ⟨[], hay, by simp, by simp⟩
  | cons n ns ih =>
    cases hay with
    | nil =>
      simp only [matchesAt, Bool.false_eq_true, false_iff]
      rintro ⟨mid, post, h1, h2⟩
      have hmid : mid = [] := by
        cases mid with
        | nil => rfl
        | cons a as => simp at h1
      subst hmid
      simp at h2
    | cons h hs =>
      simp only [matchesAt, Bool.and_eq_true, decide_eq_true_eq, ih]
      constructor
      · rintro ⟨hc, mid, post, h1, h2⟩
        exact ⟨h :: mid, post, by simp [h1], by simp [h2, hc]⟩
      · rintro ⟨mid, post, h1, h2⟩
        cases mid with
        | nil => simp at h2
        | cons a as =>
          simp only [List.cons_append, List.cons.injEq] at h1
          simp only [List.map_cons, List.cons.injEq] at h2
          obtain ⟨rfl, h1⟩ := h1
          exact ⟨h2.1.symm, as, post, h1, h2.2⟩

theorem findFolded_iff (needle hay : List Char) :
    findFolded needle hay = true ↔
      ∃ pre mid post : List Char,
        hay = pre ++ mid ++ post ∧ mid.map foldCase = needle.map foldCase := by
  induction hay with
  | nil =>
    simp only [findFolded, matchesAt_iff]
    constructor
    · rintro ⟨mid, post, h1, h2⟩
      exact ⟨[], mid, post, by simpa using h1, h2⟩
    · rintro ⟨pre, mid, post, h1, h2⟩
      have h3 : pre = [] ∧ mid = [] ∧ post = [] := by
        simpa [and_assoc] using h1.symm
      obtain ⟨rfl, rfl, rfl⟩ := h3
      exact ⟨[], [], by simp, h2⟩
  | cons h hs ih =>
    simp only [findFolded, Bool.or_eq_true, matchesAt_iff, ih]
    constructor
    · rintro (⟨mid, post, h1, h2⟩ | ⟨pre, mid, post, h1, h2⟩)
      · exact ⟨[], mid, post, by simpa using h1, h2⟩
      · exact ⟨h :: pre, mid, post, by simp [h1], h2⟩
    · rintro ⟨pre, mid, post, h1, h2⟩
      cases pre with
      | nil => exact Or.inl ⟨mid, post, by simpa using h1, h2⟩
      | cons a as =>
        simp only [List.cons_append, List.cons.injEq] at h1
        exact Or.inr ⟨as, mid, post, h1.2, h2⟩

theorem containsCaseInsensitive_iff (s needle : String) :
    containsCaseInsensitive s needle = true ↔ CaseInsensitiveSubstring s needle := by
  simp only [containsCaseInsensitive, findFolded_iff, CaseInsensitiveSubstring]

theorem caseInsensitiveSubstring_congr (s w1 w2 : String)
    (h : w1.data.map foldCase = w2.data.map foldCase) :
    CaseInsensitiveSubstring s w1 ↔ CaseInsensitiveSubstring s w2 := by
  simp only [CaseInsensitiveSubstring, h]

theorem qgetenv_eq_valueOrEmpty (env : Env) (name : String) :
    qgetenv env name = valueOrEmpty env name := by
  unfold qgetenv valueOrEmpty
  cases env name <;> rfl

/-! ## Session classification -/

/-- C5: `isGnomeEnvironment` is true iff the value of `XDG_CURRENT_DESKTOP` or the value of
`GDMSESSION` (an unset variable counting as empty) contains "gnome" as a case-insensitive
substring; `XDG_CURRENT_DESKTOP` set to "GNOME", "gnome" or "GNOME classic" is classified
as Gnome whatever `GDMSESSION` is, in particular when it is empty. -/
theorem isGnomeEnvironment_iff (env : Env) :
    (isGnomeEnvironment env = true ↔
        CaseInsensitiveSubstring (valueOrEmpty env "XDG_CURRENT_DESKTOP") "gnome" ∨
        CaseInsensitiveSubstring (valueOrEmpty env "GDMSESSION") "gnome") ∧
      (env "XDG_CURRENT_DESKTOP" = some "GNOME" ∨ env "XDG_CURRENT_DESKTOP" = some "gnome" ∨
          env "XDG_CURRENT_DESKTOP" = some "GNOME classic" →
        isGnomeEnvironment env = true) := by
  constructor
  · simp only [isGnomeEnvironment, Bool.or_eq_true, containsCaseInsensitive_iff,
      qgetenv_eq_valueOrEmpty]
    rw [caseInsensitiveSubstring_congr _ "GNOME" "gnome" (by decide)]
  · rintro (h | h | h) <;>
      simp only [isGnomeEnvironment, qgetenv, h, Bool.or_eq_true] <;>
      exact Or.inl (by decide)

/-- Witness of C5: `XDG_CURRENT_DESKTOP="GNOME classic"` with `GDMSESSION=""`. -/
theorem isGnomeEnvironment_iff_witness :
    isGnomeEnvironment
      (envOfList [("XDG_CURRENT_DESKTOP", "GNOME classic"), ("GDMSESSION", "")]) = true :=
  (isGnomeEnvironment_iff
    (envOfList [("XDG_CURRENT_DESKTOP", "GNOME classic"), ("GDMSESSION", "")])).2
    (Or.inr (Or.inr (by decide)))

/-- C6: `isWlrootsCompositor` is true iff the value of `XDG_CURRENT_DESKTOP` (unset counting
as empty) contains "hyprland", "sway" or "river" as a case-insensitive substring; two
snapshots that agree on `XDG_CURRENT_DESKTOP` get the same answer whatever else they hold;
`XDG_CURRENT_DESKTOP="Hyprland"` gives true. -/
theorem isWlrootsCompositor_iff (env : Env) :
    (isWlrootsCompositor env = true ↔
        CaseInsensitiveSubstring (valueOrEmpty env "XDG_CURRENT_DESKTOP") "hyprland" ∨
        CaseInsensitiveSubstring (valueOrEmpty env "XDG_CURRENT_DESKTOP") "sway" ∨
        CaseInsensitiveSubstring (valueOrEmpty env "XDG_CURRENT_DESKTOP") "river") ∧
      (∀ env2 : Env, env2 "XDG_CURRENT_DESKTOP" = env "XDG_CURRENT_DESKTOP" →
        isWlrootsCompositor env2 = isWlrootsCompositor env) ∧
      (env "XDG_CURRENT_DESKTOP" = some "Hyprland" → isWlrootsCompositor env = true) := by
  refine ⟨?_, ?_, ?_⟩
  · simp only [isWlrootsCompositor, Bool.or_eq_true, containsCaseInsensitive_iff,
      qgetenv_eq_valueOrEmpty, or_assoc]
    rw [caseInsensitiveSubstring_congr _ "Hyprland" "hyprland" (by decide)]
  · intro env2 h
    simp only [isWlrootsCompositor, qgetenv, h]
  · intro h
    simp only [isWlrootsCompositor, qgetenv, h, Bool.or_eq_true]
    exact Or.inl (Or.inl (by decide))

/-- Witness of C6: `XDG_CURRENT_DESKTOP="Hyprland"`, and a second snapshot that differs in
`GDMSESSION` only. -/
theorem isWlrootsCompositor_iff_witness :
    isWlrootsCompositor (envOfList [("XDG_CURRENT_DESKTOP", "Hyprland")]) = true ∧
      isWlrootsCompositor
          (envOfList [("GDMSESSION", "gnome"), ("XDG_CURRENT_DESKTOP", "Hyprland")])
        = isWlrootsCompositor (envOfList [("XDG_CURRENT_DESKTOP", "Hyprland")]) :=
  ⟨(isWlrootsCompositor_iff (envOfList [("XDG_CURRENT_DESKTOP", "Hyprland")])).2.2
      (by decide),
   (isWlrootsCompositor_iff (envOfList [("XDG_CURRENT_DESKTOP", "Hyprland")])).2.1
      (envOfList [("GDMSESSION", "gnome"), ("XDG_CURRENT_DESKTOP", "Hyprland")])
      (by decide)⟩

/-! ## The description -/

theorem getEnvironmentDescription_eq (env : Env) (platformName : String) :
    getEnvironmentDescription env platformName
      = (if isGnomeEnvironment env then "GNOME"
          else if isWlrootsCompositor env then "wlroots"
          else if valueOrEmpty env "XDG_CURRENT_DESKTOP" = "" then "Unknown"
          else valueOrEmpty env "XDG_CURRENT_DESKTOP") ++ protocolSuffix platformName := by
  simp only [getEnvironmentDescription, isWaylandSession, protocolSuffix,
    qgetenv_eq_valueOrEmpty, decide_eq_true_eq]
  split <;> rfl

theorem data_getLast?_append (base suffix : String) (c : Char)
    (h : suffix.data.getLast? = some c) : (base ++ suffix).data.getLast? = some c := by
  rw [String.data_append, List.getLast?_append, h]
  rfl

/-- C7: when neither the Gnome check nor the wlroots check matches, the description is the
raw `XDG_CURRENT_DESKTOP` value followed by the protocol suffix, or "Unknown" followed by
the protocol suffix when the variable is unset or empty; with the variable unset and the
platform name "wayland" it is "Unknown/Wayland". -/
theorem getEnvironmentDescription_fallback (env : Env) (platformName : String)
    (hg : isGnomeEnvironment env = false) (hw : isWlrootsCompositor env = false) :
    (∀ raw : String, env "XDG_CURRENT_DESKTOP" = some raw → raw ≠ "" →
        getEnvironmentDescription env platformName = raw ++ protocolSuffix platformName) ∧
      (env "XDG_CURRENT_DESKTOP" = none ∨ env "XDG_CURRENT_DESKTOP" = some "" →
        getEnvironmentDescription env platformName
          = "Unknown" ++ protocolSuffix platformName) ∧
      (env "XDG_CURRENT_DESKTOP" = none →
        getEnvironmentDescription env "wayland" = "Unknown/Wayland") := by
  refine ⟨?_, ?_, ?_⟩
  · intro raw h hne
    rw [getEnvironmentDescription_eq]
    simp [hg, hw, valueOrEmpty, h, hne]
  · rintro (h | h) <;>
      · rw [getEnvironmentDescription_eq]
        simp [hg, hw, valueOrEmpty, h]
  · intro h
    rw [getEnvironmentDescription_eq]
    simp only [hg, hw, valueOrEmpty, h]
    decide

/-- Witness of C7: a KDE session on X11, and a snapshot without `XDG_CURRENT_DESKTOP`. -/
theorem getEnvironmentDescription_fallback_witness :
    getEnvironmentDescription (envOfList [("XDG_CURRENT_DESKTOP", "KDE")]) "xcb" = "KDE/X11" ∧
      getEnvironmentDescription (envOfList [("GDMSESSION", "plasma")]) "wayland"
        = "Unknown/Wayland" :=
  ⟨(getEnvironmentDescription_fallback (envOfList [("XDG_CURRENT_DESKTOP", "KDE")]) "xcb"
      (by decide) (by decide)).1 "KDE" (by decide) (by decide),
   (getEnvironmentDescription_fallback (envOfList [("GDMSESSION", "plasma")]) "wayland"
      (by decide) (by decide)).2.2 (by decide)⟩

/-- C8: the description is a family part, the same for every platform name, followed by
exactly one suffix: "/Wayland" when the platform name is exactly "wayland" and "/X11" for
every other one (the empty name, "xcb" and "Wayland" among them); a description built for
"wayland" does not end with "/X11", one built for another name not with "/Wayland". -/
theorem getEnvironmentDescription_suffix (env : Env) :
    (∃ base : String,
        getEnvironmentDescription env "wayland" = base ++ "/Wayland" ∧
        (∀ p : String, p ≠ "wayland" → getEnvironmentDescription env p = base ++ "/X11") ∧
        getEnvironmentDescription env "" = base ++ "/X11" ∧
        getEnvironmentDescription env "xcb" = base ++ "/X11" ∧
        getEnvironmentDescription env "Wayland" = base ++ "/X11") ∧
      (∀ base : String, getEnvironmentDescription env "wayland" ≠ base ++ "/X11") ∧
      (∀ p base : String, p ≠ "wayland" →
        getEnvironmentDescription env p ≠ base ++ "/Wayland") := by
  have hx : ∀ p : String, p ≠ "wayland" → protocolSuffix p = "/X11" := by
    intro p hp
    simp [protocolSuffix, hp]
  refine ⟨⟨(if isGnomeEnvironment env then "GNOME"
      else if isWlrootsCompositor env then "wlroots"
      else if valueOrEmpty env "XDG_CURRENT_DESKTOP" = "" then "Unknown"
      else valueOrEmpty env "XDG_CURRENT_DESKTOP"), ?_, ?_, ?_, ?_, ?_⟩, ?_, ?_⟩
  · rw [getEnvironmentDescription_eq]
    rfl
  · intro p hp
    rw [getEnvironmentDescription_eq, hx p hp]
  · rw [getEnvironmentDescription_eq, hx "" (by decide)]
  · rw [getEnvironmentDescription_eq, hx "xcb" (by decide)]
  · rw [getEnvironmentDescription_eq, hx "Wayland" (by decide)]
  · intro base h
    rw [getEnvironmentDescription_eq] at h
    have h1 := data_getLast?_append base "/X11" '1' (by decide)
    rw [← h, data_getLast?_append _ (protocolSuffix "wayland") 'd' (by decide)] at h1
    revert h1
    decide
  · intro p base hp h
    rw [getEnvironmentDescription_eq, hx p hp] at h
    have h1 := data_getLast?_append base "/Wayland" 'd' (by decide)
    rw [← h, data_getLast?_append _ "/X11" '1' (by decide)] at h1
    revert h1
    decide

/-- Witness of C8: a GNOME session reported as "xcb" is described as "GNOME/X11", which
does not end with "/Wayland". -/
theorem getEnvironmentDescription_suffix_witness :
    getEnvironmentDescription (envOfList [("XDG_CURRENT_DESKTOP", "GNOME")]) "xcb"
        = "GNOME/X11" ∧
      getEnvironmentDescription (envOfList [("XDG_CURRENT_DESKTOP", "GNOME")]) "xcb"
        ≠ "GNOME" ++ "/Wayland" :=
  ⟨by decide,
    (getEnvironmentDescription_suffix (envOfList [("XDG_CURRENT_DESKTOP", "GNOME")])).2.2
      "xcb" "GNOME" (by decide)⟩

/-! ## Feature flags -/

/-- C9: `isHudDisabled` is true iff `VICINAE_DISABLE_HUD` is set to exactly "1"; unset gives
false, "1" gives true, and "yes", "0", "true" and the empty string give false. -/
theorem isHudDisabled_iff (env : Env) :
    (isHudDisabled env = true ↔ env "VICINAE_DISABLE_HUD" = some "1") ∧
      (env "VICINAE_DISABLE_HUD" = none → isHudDisabled env = false) ∧
      (env "VICINAE_DISABLE_HUD" = some "1" → isHudDisabled env = true) ∧
      (∀ v : String, env "VICINAE_DISABLE_HUD" = some v → v ≠ "1" →
        isHudDisabled env = false) ∧
      (env "VICINAE_DISABLE_HUD" = some "yes" ∨ env "VICINAE_DISABLE_HUD" = some "0" ∨
          env "VICINAE_DISABLE_HUD" = some "true" ∨ env "VICINAE_DISABLE_HUD" = some "" →
        isHudDisabled env = false) := by
  have hiff : isHudDisabled env = true ↔ env "VICINAE_DISABLE_HUD" = some "1" := by
    unfold isHudDisabled qEnvironmentVariable
    cases h : env "VICINAE_DISABLE_HUD" with
    | none => simp
    | some v => simp
  have hne : ∀ v : String, env "VICINAE_DISABLE_HUD" = some v → v ≠ "1" →
      isHudDisabled env = false := by
    intro v hv hv1
    rw [← Bool.not_eq_true, hiff, hv]
    simpa using hv1
  refine ⟨hiff, ?_, hiff.2, hne, ?_⟩
  · intro h
    rw [← Bool.not_eq_true, hiff, h]
    simp
  · rintro (h | h | h | h) <;> exact hne _ h (by decide)

/-- Witness of C9: `VICINAE_DISABLE_HUD="yes"` leaves the HUD enabled. -/
theorem isHudDisabled_iff_witness :
    isHudDisabled (envOfList [("VICINAE_DISABLE_HUD", "yes")]) = false :=
  (isHudDisabled_iff (envOfList [("VICINAE_DISABLE_HUD", "yes")])).2.2.2.1 "yes"
    (by decide) (by decide)

/-- C10: `isLayerShellEnabled` is true iff `USE_LAYER_SHELL` is unset or set to exactly "1";
set to anything else, the empty string, "0" and "true" included, it is false. -/
theorem isLayerShellEnabled_iff (env : Env) :
    (isLayerShellEnabled env = true ↔
        env "USE_LAYER_SHELL" = none ∨ env "USE_LAYER_SHELL" = some "1") ∧
      (∀ v : String, env "USE_LAYER_SHELL" = some v → v ≠ "1" →
        isLayerShellEnabled env = false) ∧
      (env "USE_LAYER_SHELL" = some "" ∨ env "USE_LAYER_SHELL" = some "0" ∨
          env "USE_LAYER_SHELL" = some "true" →
        isLayerShellEnabled env = false) := by
  have hiff : isLayerShellEnabled env = true ↔
      env "USE_LAYER_SHELL" = none ∨ env "USE_LAYER_SHELL" = some "1" := by
    unfold isLayerShellEnabled qEnvironmentVariable
    cases h : env "USE_LAYER_SHELL" with
    | none => simp
    | some v => simp
  have hne : ∀ v : String, env "USE_LAYER_SHELL" = some v → v ≠ "1" →
      isLayerShellEnabled env = false := by
    intro v hv hv1
    rw [← Bool.not_eq_true, hiff, hv]
    simpa using hv1
  refine ⟨hiff, hne, ?_⟩
  rintro (h | h | h) <;> exact hne _ h (by decide)

/-- Witness of C10: `USE_LAYER_SHELL=""` (set, but empty) disables the layer shell. -/
theorem isLayerShellEnabled_iff_witness :
    isLayerShellEnabled (envOfList [("USE_LAYER_SHELL", "")]) = false :=
  (isLayerShellEnabled_iff (envOfList [("USE_LAYER_SHELL", "")])).2.1 ""
    (by decide) (by decide)

/-! ## Runtime locations -/

/-- C11: `appImageDir` (variable `APPDIR`) and `nodeBinaryOverride` (variable `NODE_BIN`)
return a present path holding exactly the raw value iff the variable is set and absence
iff it is unset; a variable set to the empty string gives a present, empty path; and
`isAppImage` is true iff `APPDIR` is set. -/
theorem runtime_locations_follow_variable (env : Env) :
    (∀ v : String, appImageDir env = some v ↔ env "APPDIR" = some v) ∧
      (appImageDir env = none ↔ env "APPDIR" = none) ∧
      (∀ v : String, nodeBinaryOverride env = some v ↔ env "NODE_BIN" = some v) ∧
      (nodeBinaryOverride env = none ↔ env "NODE_BIN" = none) ∧
      (env "APPDIR" = some "" → appImageDir env = some "" ∧ appImageDir env ≠ none) ∧
      (env "NODE_BIN" = some "" →
        nodeBinaryOverride env = some "" ∧ nodeBinaryOverride env ≠ none) ∧
      (isAppImage env = true ↔ env "APPDIR" ≠ none) := by
  have ha : appImageDir env = env "APPDIR" := by
    unfold appImageDir getenv
    cases env "APPDIR" <;> rfl
  have hn : nodeBinaryOverride env = env "NODE_BIN" := by
    unfold nodeBinaryOverride getenv
    cases env "NODE_BIN" <;> rfl
  refine ⟨?_, ?_, ?_, ?_, ?_, ?_, ?_⟩
  · intro v
    rw [ha]
  · rw [ha]
  · intro v
    rw [hn]
  · rw [hn]
  · intro h
    rw [ha, h]
    exact ⟨rfl, by simp⟩
  · intro h
    rw [hn, h]
    exact ⟨rfl, by simp⟩
  · unfold isAppImage
    rw [ha]
    cases env "APPDIR" <;> simp

/-- Witness of C11: `APPDIR=""` is a present, empty bundle root. -/
theorem runtime_locations_follow_variable_witness :
    appImageDir (envOfList [("APPDIR", "")]) = some "" ∧
      appImageDir (envOfList [("APPDIR", "")]) ≠ none :=
  (runtime_locations_follow_variable (envOfList [("APPDIR", "")])).2.2.2.2.1 (by decide)

/-! ## Precedence of the families in the description -/

theorem isWlrootsCompositor_of_hyprland (env : Env)
    (hx : env "XDG_CURRENT_DESKTOP" = some "Hyprland") : isWlrootsCompositor env = true := by
  simp only [isWlrootsCompositor, qgetenv, hx]
  decide

theorem string_append_right_cancel (a b s : String) (h : a ++ s = b ++ s) : a = b := by
  have hd : (a ++ s).data = (b ++ s).data := by rw [h]
  rw [String.data_append, String.data_append] at hd
  exact String.ext (List.append_cancel_right hd)

/-- C13: when the wlroots check matches and the Gnome check does not (such as
`XDG_CURRENT_DESKTOP="Hyprland"` with `GDMSESSION` unset), the description is "wlroots"
followed by the protocol suffix. -/
theorem getEnvironmentDescription_wlroots (env : Env) (platformName : String) :
    (isWlrootsCompositor env = true → isGnomeEnvironment env = false →
        getEnvironmentDescription env platformName
          = "wlroots" ++ protocolSuffix platformName) ∧
      (env "XDG_CURRENT_DESKTOP" = some "Hyprland" → env "GDMSESSION" = none →
        isWlrootsCompositor env = true ∧ isGnomeEnvironment env = false ∧
        getEnvironmentDescription env platformName
          = "wlroots" ++ protocolSuffix platformName) := by
  have key : isWlrootsCompositor env = true → isGnomeEnvironment env = false →
      getEnvironmentDescription env platformName
        = "wlroots" ++ protocolSuffix platformName := by
    intro hw hg
    rw [getEnvironmentDescription_eq]
    simp [hw, hg]
  refine ⟨key, ?_⟩
  intro hx hs
  have hw : isWlrootsCompositor env = true := isWlrootsCompositor_of_hyprland env hx
  have hg : isGnomeEnvironment env = false := by
    simp only [isGnomeEnvironment, qgetenv, hx, hs]
    decide
  exact ⟨hw, hg, key hw hg⟩

/-- Witness of C13: `XDG_CURRENT_DESKTOP="Hyprland"` alone, on Wayland and on X11. -/
theorem getEnvironmentDescription_wlroots_witness :
    getEnvironmentDescription (envOfList [("XDG_CURRENT_DESKTOP", "Hyprland")]) "wayland"
        = "wlroots/Wayland" ∧
      getEnvironmentDescription (envOfList [("XDG_CURRENT_DESKTOP", "Hyprland")]) "xcb"
        = "wlroots/X11" :=
  ⟨(getEnvironmentDescription_wlroots (envOfList [("XDG_CURRENT_DESKTOP", "Hyprland")])
      "wayland").1 (by decide) (by decide),
   ((getEnvironmentDescription_wlroots (envOfList [("XDG_CURRENT_DESKTOP", "Hyprland")])
      "xcb").2 (by decide) (by decide)).2.2⟩

/-- C14: the two family predicates are not mutually exclusive: both are true for
`XDG_CURRENT_DESKTOP="sway:GNOME"`, and for `XDG_CURRENT_DESKTOP="river"` with
`GDMSESSION="gnome"`. -/
theorem family_predicates_overlap :
    (∃ env : Env, isGnomeEnvironment env = true ∧ isWlrootsCompositor env = true) ∧
      (isGnomeEnvironment (envOfList [("XDG_CURRENT_DESKTOP", "sway:GNOME")]) = true ∧
        isWlrootsCompositor (envOfList [("XDG_CURRENT_DESKTOP", "sway:GNOME")]) = true) ∧
      (isGnomeEnvironment
          (envOfList [("XDG_CURRENT_DESKTOP", "river"), ("GDMSESSION", "gnome")]) = true ∧
        isWlrootsCompositor
          (envOfList [("XDG_CURRENT_DESKTOP", "river"), ("GDMSESSION", "gnome")]) = true) :=
  ⟨⟨envOfList [("XDG_CURRENT_DESKTOP", "sway:GNOME")], by decide, by decide⟩,
    ⟨by decide, by decide⟩, ⟨by decide, by decide⟩⟩

/-! ## Relational properties of the launch environment -/

/-- C15: the `program` argument has no influence on the result: for every snapshot, home
directory and two program strings the returned maps are the same. -/
theorem sanitized_ignores_program (env : Env) (homePath p q : String) :
    sanitizedAppLaunchEnvironment env homePath p
      = sanitizedAppLaunchEnvironment env homePath q := by
  funext k
  rw [sanitized_apply, sanitized_apply]

/-- C16: sanitization is idempotent: with the home directory fixed, sanitizing an already
sanitized map returns that same map. -/
theorem sanitized_idempotent (env : Env) (homePath p q : String) :
    sanitizedAppLaunchEnvironment (sanitizedAppLaunchEnvironment env homePath p) homePath q
      = sanitizedAppLaunchEnvironment env homePath p := by
  funext k
  rw [sanitized_apply, sanitized_apply]
  by_cases h1 : k = "PATH"
  · simp [h1]
  · by_cases h2 : k ∈ toRemove
    · simp [h1, h2]
    · simp [h1, h2]

/-! ## The family part of the description -/

theorem not_caseInsensitiveSubstring_of_false (s needle keyword : String)
    (hf : needle.data.map foldCase = keyword.data.map foldCase)
    (h : containsCaseInsensitive s needle = false) :
    ¬ CaseInsensitiveSubstring s keyword := by
  intro hc
  rw [← caseInsensitiveSubstring_congr s needle keyword hf,
    ← containsCaseInsensitive_iff, h] at hc
  exact Bool.false_ne_true hc

/-- C17: the part of the description before the protocol suffix is "GNOME" iff
`isGnomeEnvironment` is true, and it is never empty; in the fallback branch with a
non-empty raw `XDG_CURRENT_DESKTOP` value that part is the raw value, which contains
neither "gnome" nor "hyprland", "sway" or "river" as a case-insensitive substring. -/
theorem description_family_part (env : Env) (platformName base : String)
    (hbase : getEnvironmentDescription env platformName
      = base ++ protocolSuffix platformName) :
    (base = "GNOME" ↔ isGnomeEnvironment env = true) ∧
      base ≠ "" ∧
      (isGnomeEnvironment env = false → isWlrootsCompositor env = false →
        valueOrEmpty env "XDG_CURRENT_DESKTOP" ≠ "" →
        base = valueOrEmpty env "XDG_CURRENT_DESKTOP" ∧
        ¬ CaseInsensitiveSubstring base "gnome" ∧
        ¬ CaseInsensitiveSubstring base "hyprland" ∧
        ¬ CaseInsensitiveSubstring base "sway" ∧
        ¬ CaseInsensitiveSubstring base "river") := by
  rw [getEnvironmentDescription_eq] at hbase
  have hb := (string_append_right_cancel _ _ _ hbase).symm
  by_cases hg : isGnomeEnvironment env = true
  · have hb1 : base = "GNOME" := by simpa [hg] using hb
    refine ⟨⟨fun _ => hg, fun _ => hb1⟩, ?_, ?_⟩
    · rw [hb1]; decide
    · intro hg2
      rw [hg] at hg2
      cases hg2
  · have hgf : isGnomeEnvironment env = false := by simpa using hg
    by_cases hw : isWlrootsCompositor env = true
    · have hb1 : base = "wlroots" := by simpa [hgf, hw] using hb
      refine ⟨⟨?_, fun h => absurd h hg⟩, ?_, ?_⟩
      · rw [hb1]
        intro h
        exact absurd h (by decide)
      · rw [hb1]; decide
      · intro _ hw2
        rw [hw] at hw2
        cases hw2
    · have hwf : isWlrootsCompositor env = false := by simpa using hw
      by_cases hv : valueOrEmpty env "XDG_CURRENT_DESKTOP" = ""
      · have hb1 : base = "Unknown" := by simpa [hgf, hwf, hv] using hb
        refine ⟨⟨?_, fun h => absurd h hg⟩, ?_, ?_⟩
        · rw [hb1]
          intro h
          exact absurd h (by decide)
        · rw [hb1]; decide
        · intro _ _ hne
          exact absurd hv hne
      · have hb1 : base = valueOrEmpty env "XDG_CURRENT_DESKTOP" := by
          simpa [hgf, hwf, hv] using hb
        have hgn : containsCaseInsensitive base "GNOME" = false := by
          have h := hgf
          simp only [isGnomeEnvironment, qgetenv_eq_valueOrEmpty, Bool.or_eq_false_iff] at h
          rw [hb1]
          exact h.1
        have hwl := hwf
        simp only [isWlrootsCompositor, qgetenv_eq_valueOrEmpty, Bool.or_eq_false_iff,
          ← hb1] at hwl
        refine ⟨⟨?_, fun h => absurd h hg⟩, ?_, ?_⟩
        · intro hbg
          rw [hbg] at hgn
          exact absurd hgn (by decide)
        · rw [hb1]; exact hv
        · intro _ _ _
          exact ⟨hb1,
            not_caseInsensitiveSubstring_of_false base "GNOME" "gnome" (by decide) hgn,
            not_caseInsensitiveSubstring_of_false base "Hyprland" "hyprland" (by decide)
              hwl.1.1,
            not_caseInsensitiveSubstring_of_false base "sway" "sway" rfl hwl.1.2,
            not_caseInsensitiveSubstring_of_false base "river" "river" rfl hwl.2⟩

/-- Witness of C17: a KDE session on X11 has the family part "KDE", which is neither
"GNOME" nor empty. -/
theorem description_family_part_witness :
    getEnvironmentDescription (envOfList [("XDG_CURRENT_DESKTOP", "KDE")]) "xcb"
        = "KDE" ++ protocolSuffix "xcb" ∧
      ("KDE" = "GNOME" ↔ isGnomeEnvironment (envOfList [("XDG_CURRENT_DESKTOP", "KDE")]) = true) ∧
      "KDE" ≠ "" ∧
      ¬ CaseInsensitiveSubstring "KDE" "gnome" :=
  ⟨by decide,
    (description_family_part (envOfList [("XDG_CURRENT_DESKTOP", "KDE")]) "xcb" "KDE"
      (by decide)).1,
    (description_family_part (envOfList [("XDG_CURRENT_DESKTOP", "KDE")]) "xcb" "KDE"
      (by decide)).2.1,
    ((description_family_part (envOfList [("XDG_CURRENT_DESKTOP", "KDE")]) "xcb" "KDE"
      (by decide)).2.2 (by decide) (by decide) (by decide)).2.1⟩

end Environment
